import Mathlib

/-!
Shallow embedding of the metric assembly and publish pipeline of
fubarhouse/personal-performance-metrics (Go).

Source files embedded:
  * the current `main.go` (given as `src/unnamed/part_000`): `Config`,
    `MetricMapping`, `MetricMappingDimensions`, `PerformanceData`,
    `printTable`, `publishMetrics`, `confirm`;
  * the legacy `main.go` (given as `src/main.go`): its `publishMetrics`
    assembly loop, embedded as `legacyAssembleRecords`.

Modelling conventions:
  * Go `float64` values are modelled as exact rationals (`ℚ`); `math.Round`
    is documented in Go as "the nearest integer, rounding half away from
    zero", embedded as `goRound`.
  * A Go map is modelled by an association list holding its contents in the
    (arbitrary) order a `range` traversal enumerates them; `m[k]` with the
    comma-ok idiom is `List.lookup`, and `m[k]` without it is
    `lookupMappingOrZero` (Go yields the zero value for a missing key).
  * The CloudWatch client is abstracted as a function
    `PutMetricDataInput → Except String Unit`; the interactive input stream
    is a finite list of lines, exhaustion standing for a read error or a
    closed stream; printed messages are recorded as `OutEvent`s.
  * `Timestamp` (`time.Now()`) is omitted from the datum, being wall-clock
    state outside the pipeline's logic; `Unit` is the fixed string "Count"
    (`types.StandardUnitCount`).
-/

/-- `MetricMappingDimensions` from the source: one name/value dimension. -/
structure MetricMappingDimensions where
  Name : String
  Value : String
deriving DecidableEq, Repr

/-- `MetricMapping` from the source: remote metric name plus ordered dimensions. -/
structure MetricMapping where
  Name : String
  Dimensions : List MetricMappingDimensions
deriving DecidableEq, Repr

/-- `Config` from the source (current format). -/
structure Config where
  Region : String
  Profile : String
  SkipPublish : Bool
  MetricNamespace : String
  MetricMappings : List (String × MetricMapping)
deriving DecidableEq, Repr

/-- `PerformanceData` from the source: map key → float64 value, as the list of
entries in traversal order. -/
abbrev PerformanceData : Type := List (String × ℚ)

/-- Go `math.Round`: the nearest integer, rounding half away from zero. -/
def goRound (x : ℚ) : ℚ :=
  if 0 ≤ x then ((⌊x + 1/2⌋ : ℤ) : ℚ) else -((⌊-x + 1/2⌋ : ℤ) : ℚ)

/-- `math.Round(x*100) / 100` — the 2-decimal rounding used at
`printTable` line 151 and `publishMetrics` line 179. -/
def round2 (x : ℚ) : ℚ := goRound (x * 100) / 100

/-- 1-decimal rounding, `math.Round(x*10) / 10` (the legacy format's stated
precision). -/
def round1 (x : ℚ) : ℚ := goRound (x * 10) / 10

/-- `config.MetricMappings[key]` with the comma-ok idiom (`publishMetrics`). -/
def lookupMapping (cfg : Config) (key : String) : Option MetricMapping :=
  cfg.MetricMappings.lookup key

/-- `config.MetricMappings[key]` without the comma-ok idiom (`printTable`):
Go returns the zero value for a missing key. -/
def lookupMappingOrZero (cfg : Config) (key : String) : MetricMapping :=
  (lookupMapping cfg key).getD ⟨"", []⟩

/-- The `dimensions` string built in `printTable` lines 147-150:
`dimensions += fmt.Sprintf("%s=%s ", v.Name, v.Value)` for each dimension. -/
def dimString (dims : List MetricMappingDimensions) : String :=
  dims.foldl (fun acc d => acc ++ d.Name ++ "=" ++ d.Value ++ " ") ""

/-- One data row of the preview table (`printTable` line 151). The `Value`
cell is rendered via `fmt.Sprint` of the rounded float; we keep the rounded
number itself, rendering being a fixed injective formatting. -/
structure TableRow where
  MetricName : String
  RowValue : ℚ
  DimensionsCell : String
deriving DecidableEq, Repr

/-- The row `printTable` appends for one data entry. -/
def mkRow (cfg : Config) (kv : String × ℚ) : TableRow :=
  { MetricName := (lookupMappingOrZero cfg kv.1).Name
    RowValue := round2 kv.2
    DimensionsCell := dimString (lookupMappingOrZero cfg kv.1).Dimensions }

/-- The data rows of the preview table, in traversal order: `printTable`
lines 146-152 append one row per entry of `data` (no mapped-key check). The
constant header row is kept apart. -/
def printTableRows (data : PerformanceData) (cfg : Config) : List TableRow :=
  data.foldl (fun acc kv => acc ++ [mkRow cfg kv]) []

/-- `types.MetricDatum` as assembled in `publishMetrics` lines 180-192
(`Timestamp` omitted, see module comment). -/
structure MetricDatum where
  MetricName : String
  Value : ℚ
  Unit : String
  Dimensions : List MetricMappingDimensions
deriving DecidableEq, Repr

/-- The dimension-append loop of `publishMetrics` lines 187-192. -/
def buildDimensions (dims : List MetricMappingDimensions) :
    List MetricMappingDimensions :=
  dims.foldl (fun acc d => acc ++ [⟨d.Name, d.Value⟩]) []

/-- The datum built for one mapped key (`publishMetrics` lines 179-192):
`metricValue := math.Round(value*100) / 100`. -/
def mkDatum (m : MetricMapping) (value : ℚ) : MetricDatum :=
  { MetricName := m.Name
    Value := round2 value
    Unit := "Count"
    Dimensions := buildDimensions m.Dimensions }

/-- The assembly loop of `publishMetrics` lines 171-195: skip unmapped keys,
append one datum per mapped key, in traversal order. -/
def assembleRecords (data : PerformanceData) (cfg : Config) : List MetricDatum :=
  data.foldl
    (fun acc kv =>
      match lookupMapping cfg kv.1 with
      | none => acc
      | some m => acc ++ [mkDatum m kv.2])
    []

/-- `cloudwatch.PutMetricDataInput` built at `publishMetrics` lines 197-200. -/
structure PutMetricDataInput where
  Namespace : String
  MetricData : List MetricDatum
deriving DecidableEq, Repr

/-- The messages the pipeline prints, in order. -/
inductive OutEvent where
  /-- `"Metrics to be published:"` (`printTable` line 154) -/
  | metricsHeader : OutEvent
  /-- the rendered preview table (`printTable` line 155) -/
  | table (rows : List TableRow) : OutEvent
  /-- `"You have elected to not publish these metrics, exiting..."` -/
  | skipMsg : OutEvent
  /-- `"Do you want to proceed? [y/n]: "` (`confirm` line 220) -/
  | prompt : OutEvent
  /-- `"Error reading input: ..."` (`confirm` line 224) -/
  | readErrorWarning : OutEvent
  /-- `"Invalid input. Please enter 'y' or 'n'."` (`confirm` line 236) -/
  | invalidInputMsg : OutEvent
  /-- `"Operation cancelled."` (`publishMetrics` line 209) -/
  | cancelledMsg : OutEvent
  /-- `"Metrics published successfully!"` (`publishMetrics` line 207) -/
  | successMsg : OutEvent
deriving DecidableEq, Repr

/-- `strings.TrimSpace`: strip leading and trailing whitespace. Modelled over
the character list (Go trims Unicode white space; the two agree on the ASCII
whitespace relevant here). -/
def goTrimSpace (s : String) : String :=
  ⟨((s.data.dropWhile Char.isWhitespace).reverse.dropWhile Char.isWhitespace).reverse⟩

/-- `strings.ToLower`: lowercase every character, modelled over the character
list. -/
def goToLower (s : String) : String := ⟨s.data.map Char.toLower⟩

/-- `strings.ToLower(strings.TrimSpace(response))` (`confirm` line 228). -/
def normalizeResponse (s : String) : String := goToLower (goTrimSpace s)

/-- The `confirm` loop, lines 216-239: read a line, trim and lowercase;
`y`/`yes` approve, `n`/`no` decline, anything else re-prompts; an exhausted
stream is a read error, which warns and returns `false`. Returns the
decision and the printed events. -/
def confirm : List String → Bool × List OutEvent
  | [] => (false, [.prompt, .readErrorWarning])
  | line :: rest =>
    let r := normalizeResponse line
    if r = "y" ∨ r = "yes" then (true, [.prompt])
    else if r = "n" ∨ r = "no" then (false, [.prompt])
    else
      let next := confirm rest
      (next.1, .prompt :: .invalidInputMsg :: next.2)

/-- Everything observable about one `publishMetrics` call: printed events,
the remote calls issued, and the returned error (`none` = `nil`). -/
structure RunTrace where
  output : List OutEvent
  publishCalls : List PutMetricDataInput
  err : Option String
deriving DecidableEq, Repr

/-- `publishMetrics`, lines 159-213: print the preview table; if
`SkipPublish`, stop with the skip message; otherwise assemble the batch and,
when non-interactive or confirmed, issue the one `PutMetricData` call,
propagating its error; a declined confirmation cancels cleanly.
`put` abstracts the CloudWatch client, `stdin` the interactive stream.
Simplification: the single `data` list feeds both the preview loop and the
assembly loop, though in Go they are two independent `range` traversals of
the map whose enumeration orders need not coincide even within one run;
order-sensitive properties are therefore stated over pairs of enumerations
related by permutation, never inferred from the shared list. -/
def publishMetrics (put : PutMetricDataInput → Except String Unit)
    (nonInteractive : Bool) (stdin : List String)
    (data : PerformanceData) (cfg : Config) : RunTrace :=
  let pre : List OutEvent := [.metricsHeader, .table (printTableRows data cfg)]
  if cfg.SkipPublish then
    { output := pre ++ [.skipMsg], publishCalls := [], err := none }
  else
    let input : PutMetricDataInput :=
      { Namespace := cfg.MetricNamespace
        MetricData := assembleRecords data cfg }
    let gate : Bool × List OutEvent :=
      if nonInteractive then (true, []) else confirm stdin
    if gate.1 then
      match put input with
      | .error e =>
        { output := pre ++ gate.2, publishCalls := [input], err := some e }
      | .ok _ =>
        { output := pre ++ gate.2 ++ [.successMsg], publishCalls := [input],
          err := none }
    else
      { output := pre ++ gate.2 ++ [.cancelledMsg], publishCalls := [],
        err := none }

/-- A datum of the legacy `main.go`: name and raw value (data values are
`int` there; no rounding is applied in the code). -/
structure LegacyDatum where
  MetricName : String
  Value : ℚ
deriving DecidableEq, Repr

/-- The assembly loop of the legacy `main.go` `publishMetrics`: mappings are
key → name strings, values are integers published as `float64(value)`. -/
def legacyAssembleRecords (data : List (String × ℤ))
    (mappings : List (String × String)) : List LegacyDatum :=
  data.foldl
    (fun acc kv =>
      match mappings.lookup kv.1 with
      | none => acc
      | some name => acc ++ [⟨name, ((kv.2 : ℤ) : ℚ)⟩])
    []

/-! ## Structural lemmas about the embedded functions -/

/-- Appending-fold characterization: the row-accumulating loop is a `map`. -/
lemma foldl_append_eq_map {α β : Type} (f : α → β) (l : List α) :
    ∀ init : List β, l.foldl (fun acc x => acc ++ [f x]) init = init ++ l.map f := by
  induction l with
  | nil => intro init; simp
  | cons x l ih => intro init; simp [ih]

/-- The preview loop appends exactly one row per data entry, in order. -/
lemma printTableRows_eq_map (data : PerformanceData) (cfg : Config) :
    printTableRows data cfg = data.map (mkRow cfg) := by
  simpa [printTableRows] using foldl_append_eq_map (mkRow cfg) data []

/-- The dimension-append loop of `publishMetrics` copies the list verbatim. -/
lemma buildDimensions_eq (dims : List MetricMappingDimensions) :
    buildDimensions dims = dims := by
  have h := foldl_append_eq_map
    (fun d : MetricMappingDimensions => (⟨d.Name, d.Value⟩ : MetricMappingDimensions)) dims []
  simpa [buildDimensions] using h

/-- The assembly loop is a `filterMap`: one datum per mapped key, unmapped
keys dropped. -/
lemma assembleRecords_eq_filterMap (data : PerformanceData) (cfg : Config) :
    assembleRecords data cfg
      = data.filterMap fun kv => (lookupMapping cfg kv.1).map fun m => mkDatum m kv.2 := by
  suffices h : ∀ (l : PerformanceData) (init : List MetricDatum),
      l.foldl (fun acc kv =>
          match lookupMapping cfg kv.1 with
          | none => acc
          | some m => acc ++ [mkDatum m kv.2]) init
        = init ++ l.filterMap fun kv => (lookupMapping cfg kv.1).map fun m => mkDatum m kv.2 by
    simpa [assembleRecords] using h data []
  intro l
  induction l with
  | nil => intro init; simp
  | cons kv l ih =>
    intro init
    cases h : lookupMapping cfg kv.1 <;> simp [h, ih]

/-- The assembly loop as a filter-then-map over the mapped entries. -/
lemma assembleRecords_eq_filter_map (data : PerformanceData) (cfg : Config) :
    assembleRecords data cfg
      = (data.filter fun kv => (lookupMapping cfg kv.1).isSome).map
          fun kv => mkDatum (lookupMappingOrZero cfg kv.1) kv.2 := by
  rw [assembleRecords_eq_filterMap]
  induction data with
  | nil => rfl
  | cons kv l ih =>
    cases h : lookupMapping cfg kv.1 <;>
      simp [List.filter_cons, h, ih, lookupMappingOrZero]

/-- The confirmation loop never prints the success message. -/
lemma confirm_no_success (stdin : List String) :
    OutEvent.successMsg ∉ (confirm stdin).2 := by
  induction stdin with
  | nil => simp [confirm]
  | cons line rest ih =>
    by_cases h1 : normalizeResponse line = "y" ∨ normalizeResponse line = "yes"
    · simp [confirm, h1]
    · by_cases h2 : normalizeResponse line = "n" ∨ normalizeResponse line = "no"
      · simp [confirm, h1, h2]
      · simp [confirm, h1, h2, ih]

/-- `⌊n + 1/2⌋ = n` for an integer `n`. -/
lemma floor_intCast_add_half (n : ℤ) : ⌊(n : ℚ) + 1/2⌋ = n := by
  rw [Int.floor_eq_iff]
  constructor
  · linarith
  · linarith

/-- `math.Round` is the identity on integers. -/
lemma goRound_intCast (n : ℤ) : goRound (n : ℚ) = n := by
  by_cases h : (0:ℚ) ≤ (n : ℚ)
  · rw [goRound, if_pos h, floor_intCast_add_half]
  · rw [goRound, if_neg h,
      show -(n:ℚ) = ((-n : ℤ) : ℚ) by push_cast; ring, floor_intCast_add_half]
    push_cast; ring

/-- 1-decimal rounding is the identity on integers. -/
lemma round1_intCast (n : ℤ) : round1 (n : ℚ) = n := by
  rw [round1, show (n:ℚ) * 10 = ((n * 10 : ℤ) : ℚ) by push_cast; ring,
    goRound_intCast]
  push_cast
  field_simp

/-- The legacy assembly loop as a filter-then-map over the mapped entries. -/
lemma legacyAssembleRecords_eq_filter_map (data : List (String × ℤ))
    (mappings : List (String × String)) :
    legacyAssembleRecords data mappings
      = (data.filter fun kv => (mappings.lookup kv.1).isSome).map
          fun kv => (⟨(mappings.lookup kv.1).getD "", ((kv.2 : ℤ) : ℚ)⟩ : LegacyDatum) := by
  suffices h : ∀ (l : List (String × ℤ)) (init : List LegacyDatum),
      l.foldl (fun acc kv =>
          match mappings.lookup kv.1 with
          | none => acc
          | some name => acc ++ [⟨name, ((kv.2 : ℤ) : ℚ)⟩]) init
        = init ++ (l.filter fun kv => (mappings.lookup kv.1).isSome).map
            fun kv => (⟨(mappings.lookup kv.1).getD "", ((kv.2 : ℤ) : ℚ)⟩ : LegacyDatum) by
    simpa [legacyAssembleRecords] using h data []
  intro l
  induction l with
  | nil => intro init; simp
  | cons kv l ih =>
    intro init
    cases h : mappings.lookup kv.1 <;> simp [List.filter_cons, h, ih]

/-! ## Claim theorems -/

/-- C1: a metric record is assembled exactly for each observed key that has a
mapping entry; keys without a mapping are silently skipped (no record), and
the run is never aborted by an unmapped key — the only error `publishMetrics`
can return is a failure of the remote publish call itself. -/
theorem assemble_drop_invariant_C1 (data : PerformanceData) (cfg : Config) :
    assembleRecords data cfg
        = (data.filter fun kv => (lookupMapping cfg kv.1).isSome).map
            (fun kv => mkDatum (lookupMappingOrZero cfg kv.1) kv.2)
    ∧ (assembleRecords data cfg).length
        = (data.filter fun kv => (lookupMapping cfg kv.1).isSome).length
    ∧ ∀ (put : PutMetricDataInput → Except String Unit) (ni : Bool) (stdin : List String),
        (publishMetrics put ni stdin data cfg).err = none
        ∨ ∃ e, put ⟨cfg.MetricNamespace, assembleRecords data cfg⟩ = Except.error e := by
  refine ⟨assembleRecords_eq_filter_map data cfg, ?_, ?_⟩
  · rw [assembleRecords_eq_filter_map]; simp
  · intro put ni stdin
    cases hput : put ⟨cfg.MetricNamespace, assembleRecords data cfg⟩ with
    | error e => exact Or.inr ⟨e, rfl⟩
    | ok u =>
      left
      simp only [publishMetrics, hput]
      split
      · rfl
      · repeat' split
        all_goals rfl

/-- C2: when skip-publish is set, `publishMetrics` renders the preview table,
prints the skip message and returns `nil`; the confirmation gate is never
entered (no prompt is printed) and no remote call is made, regardless of the
confirmation stream or the non-interactive flag. -/
theorem skip_publish_C2 (put : PutMetricDataInput → Except String Unit)
    (ni : Bool) (stdin : List String) (data : PerformanceData)
    (region profile nsp : String) (mm : List (String × MetricMapping)) :
    publishMetrics put ni stdin data ⟨region, profile, true, nsp, mm⟩
      = { output := [.metricsHeader,
                     .table (printTableRows data ⟨region, profile, true, nsp, mm⟩),
                     .skipMsg],
          publishCalls := [], err := none } := rfl

/-- C3: for data `{a: 1.25, b: 2}` and mappings `a ↦ ("A", no dimensions)`,
`b ↦ ("B", [Goal=Fitness])`, assembly yields exactly the two records
`A = 1.25` with no dimensions and `B = 2.00` with the single dimension
`Goal=Fitness` — under either traversal order of the two-entry map. -/
theorem assembly_example_C3 :
    assembleRecords [("a", 5/4), ("b", 2)]
        ⟨"", "", false, "Personal/Performance",
          [("a", ⟨"A", []⟩), ("b", ⟨"B", [⟨"Goal", "Fitness"⟩]⟩)]⟩
      = [⟨"A", 5/4, "Count", []⟩, ⟨"B", 2, "Count", [⟨"Goal", "Fitness"⟩]⟩]
    ∧ assembleRecords [("b", 2), ("a", 5/4)]
        ⟨"", "", false, "Personal/Performance",
          [("a", ⟨"A", []⟩), ("b", ⟨"B", [⟨"Goal", "Fitness"⟩]⟩)]⟩
      = [⟨"B", 2, "Count", [⟨"Goal", "Fitness"⟩]⟩, ⟨"A", 5/4, "Count", []⟩] := by
  have h1 : round2 (5/4) = 5/4 := by
    rw [round2, goRound, if_pos (by norm_num)]
    norm_num
  have h2 : round2 2 = 2 := by
    rw [round2, goRound, if_pos (by norm_num)]
    norm_num
  constructor <;>
    simp [assembleRecords, lookupMapping, List.lookup, mkDatum, buildDimensions, h1, h2]

/-- C4: the value placed in a preview row and the value placed in the
published datum are the same rounding of the raw observed value — `round2`
(2 decimal places, half away from zero) in the current format; in the legacy
format the published value coincides with the raw integer value rounded to 1
decimal place. No separate display-only rounding exists. -/
theorem rounding_consistency_C4 :
    (∀ (data : PerformanceData) (cfg : Config),
        (printTableRows data cfg).map TableRow.RowValue
          = data.map fun kv => round2 kv.2)
    ∧ (∀ (data : PerformanceData) (cfg : Config),
        (assembleRecords data cfg).map MetricDatum.Value
          = (data.filter fun kv => (lookupMapping cfg kv.1).isSome).map
              fun kv => round2 kv.2)
    ∧ (∀ (data : List (String × ℤ)) (mappings : List (String × String)),
        (legacyAssembleRecords data mappings).map LegacyDatum.Value
          = (data.filter fun kv => (mappings.lookup kv.1).isSome).map
              fun kv => round1 ((kv.2 : ℤ) : ℚ)) := by
  refine ⟨?_, ?_, ?_⟩
  · intro data cfg
    simp [printTableRows_eq_map, mkRow]
  · intro data cfg
    simp [assembleRecords_eq_filter_map, mkDatum]
  · intro data mappings
    simp [legacyAssembleRecords_eq_filter_map, round1_intCast]

/-- The trace of an approved run whose remote call fails. -/
lemma publishMetrics_approved_error (put : PutMetricDataInput → Except String Unit)
    (ni : Bool) (stdin : List String) (data : PerformanceData) (cfg : Config)
    (e : String) (hskip : cfg.SkipPublish = false)
    (hgate : (if ni then (true, ([] : List OutEvent)) else confirm stdin).1 = true)
    (hput : put ⟨cfg.MetricNamespace, assembleRecords data cfg⟩ = Except.error e) :
    publishMetrics put ni stdin data cfg
      = { output := [OutEvent.metricsHeader, OutEvent.table (printTableRows data cfg)]
            ++ (if ni then (true, ([] : List OutEvent)) else confirm stdin).2,
          publishCalls := [⟨cfg.MetricNamespace, assembleRecords data cfg⟩],
          err := some e } := by
  simp only [publishMetrics, hskip, hput, Bool.false_eq_true, if_false]
  rw [if_pos hgate]

/-- The trace of an approved run whose remote call succeeds. -/
lemma publishMetrics_approved_ok (put : PutMetricDataInput → Except String Unit)
    (ni : Bool) (stdin : List String) (data : PerformanceData) (cfg : Config)
    (hskip : cfg.SkipPublish = false)
    (hgate : (if ni then (true, ([] : List OutEvent)) else confirm stdin).1 = true)
    (hput : put ⟨cfg.MetricNamespace, assembleRecords data cfg⟩ = Except.ok ()) :
    publishMetrics put ni stdin data cfg
      = { output := [OutEvent.metricsHeader, OutEvent.table (printTableRows data cfg)]
            ++ (if ni then (true, ([] : List OutEvent)) else confirm stdin).2
            ++ [OutEvent.successMsg],
          publishCalls := [⟨cfg.MetricNamespace, assembleRecords data cfg⟩],
          err := none } := by
  simp only [publishMetrics, hskip, hput, Bool.false_eq_true, if_false]
  rw [if_pos hgate]

/-- The confirmation gate's printed events never include the success message. -/
lemma gate_no_success (ni : Bool) (stdin : List String) :
    OutEvent.successMsg ∉ (if ni then (true, ([] : List OutEvent)) else confirm stdin).2 := by
  cases ni <;> simp [confirm_no_success]

/-- C5: the confirmation gate resolves to approved without reading input in
non-interactive mode (the trace does not depend on the stream, and the
publish call is made); interactively, after trimming and lowercasing, `y`/
`yes` approve and `n`/`no` decline, while any other token re-prompts with no
decision, recursing on the rest of the stream. -/
theorem confirm_gate_C5 :
    (∀ (put : PutMetricDataInput → Except String Unit) (stdin stdin' : List String)
        (data : PerformanceData) (cfg : Config),
        publishMetrics put true stdin data cfg = publishMetrics put true stdin' data cfg)
    ∧ (∀ (put : PutMetricDataInput → Except String Unit)
        (stdin : List String) (data : PerformanceData) (region profile nsp : String)
        (mm : List (String × MetricMapping)),
        (publishMetrics put true stdin data ⟨region, profile, false, nsp, mm⟩).publishCalls
          = [⟨nsp, assembleRecords data ⟨region, profile, false, nsp, mm⟩⟩])
    ∧ (confirm ["Y"]).1 = true
    ∧ (confirm [" yes "]).1 = true
    ∧ (confirm ["n"]).1 = false
    ∧ (confirm ["NO"]).1 = false
    ∧ ∀ rest : List String,
        confirm ("maybe" :: rest)
          = ((confirm rest).1,
              OutEvent.prompt :: OutEvent.invalidInputMsg :: (confirm rest).2) := by
  refine ⟨?_, ?_, by decide, by decide, by decide, by decide, ?_⟩
  · intro put stdin stdin' data cfg
    rfl
  · intro put stdin data region profile nsp mm
    cases hput : put ⟨nsp, assembleRecords data ⟨region, profile, false, nsp, mm⟩⟩ with
    | error e =>
      rw [publishMetrics_approved_error put true stdin data _ e rfl rfl hput]
    | ok v =>
      rw [publishMetrics_approved_ok put true stdin data _ rfl rfl hput]
  · intro rest
    simp only [confirm]
    rw [if_neg (by decide), if_neg (by decide)]

/-- C6: when the interactive input stream fails or closes (exhausted stream),
the gate resolves to declined: the read-failure warning is printed, no
publish call is made, the cancellation message is printed, and
`publishMetrics` returns `nil`. -/
theorem confirm_read_error_C6 :
    confirm [] = (false, [OutEvent.prompt, OutEvent.readErrorWarning])
    ∧ ∀ (put : PutMetricDataInput → Except String Unit) (data : PerformanceData)
        (region profile nsp : String) (mm : List (String × MetricMapping)),
        publishMetrics put false [] data ⟨region, profile, false, nsp, mm⟩
          = { output := [OutEvent.metricsHeader,
                         OutEvent.table (printTableRows data ⟨region, profile, false, nsp, mm⟩),
                         OutEvent.prompt, OutEvent.readErrorWarning,
                         OutEvent.cancelledMsg],
              publishCalls := [], err := none } :=
  ⟨rfl, fun _ _ _ _ _ _ => rfl⟩

/-- C7: on an approved, non-skipped run the remote put-metric-data call is
issued exactly once, with the single batch of all assembled records tagged
with the configured namespace; if that call fails, its error is returned to
the caller and the success message is not printed. -/
theorem publish_once_C7 (put : PutMetricDataInput → Except String Unit)
    (ni : Bool) (stdin : List String) (data : PerformanceData) (cfg : Config)
    (hskip : cfg.SkipPublish = false)
    (happr : ni = true ∨ (confirm stdin).1 = true) :
    (publishMetrics put ni stdin data cfg).publishCalls
        = [⟨cfg.MetricNamespace, assembleRecords data cfg⟩]
    ∧ ∀ e : String,
        put ⟨cfg.MetricNamespace, assembleRecords data cfg⟩ = Except.error e →
          (publishMetrics put ni stdin data cfg).err = some e
          ∧ OutEvent.successMsg ∉ (publishMetrics put ni stdin data cfg).output := by
  have hgate : (if ni then (true, ([] : List OutEvent)) else confirm stdin).1 = true := by
    cases ni with
    | true => rfl
    | false => simpa using happr.resolve_left (by simp)
  cases hput : put ⟨cfg.MetricNamespace, assembleRecords data cfg⟩ with
  | error e =>
    rw [publishMetrics_approved_error put ni stdin data cfg e hskip hgate hput]
    refine ⟨rfl, ?_⟩
    intro e' he'
    injection he' with h
    subst h
    refine ⟨rfl, ?_⟩
    have hg := gate_no_success ni stdin
    intro hmem
    exact hg (by simpa using hmem)
  | ok v =>
    rw [publishMetrics_approved_ok put ni stdin data cfg hskip hgate hput]
    refine ⟨rfl, ?_⟩
    intro e' he'
    simp at he'

/-- Witness for C7 at a concrete failing publisher on an empty data set. -/
theorem publish_once_C7_witness :
    (publishMetrics (fun _ => Except.error "fail") true [] []
        ⟨"", "", false, "ns", []⟩).publishCalls
      = [⟨"ns", assembleRecords [] ⟨"", "", false, "ns", []⟩⟩]
    ∧ (publishMetrics (fun _ => Except.error "fail") true [] []
        ⟨"", "", false, "ns", []⟩).err = some "fail"
    ∧ OutEvent.successMsg ∉ (publishMetrics (fun _ => Except.error "fail") true [] []
        ⟨"", "", false, "ns", []⟩).output := by
  have h := publish_once_C7 (fun _ => Except.error "fail") true [] []
    ⟨"", "", false, "ns", []⟩ rfl (Or.inl rfl)
  exact ⟨h.1, (h.2 "fail" rfl).1, (h.2 "fail" rfl).2⟩

/-- String concatenation is associative. -/
lemma stringAppend_assoc (a b c : String) : (a ++ b) ++ c = a ++ (b ++ c) := by
  cases a; cases b; cases c
  exact congrArg String.mk (List.append_assoc _ _ _)

/-- The empty string is a left unit for concatenation. -/
lemma stringEmpty_append (s : String) : "" ++ s = s := by
  cases s; rfl

/-- The empty string is a right unit for concatenation. -/
lemma stringAppend_empty (s : String) : s ++ "" = s := by
  cases s
  exact congrArg String.mk (List.append_nil _)

/-- Fold of concatenation over a string list, with accumulator pulled out. -/
lemma foldl_stringAppend (l : List String) :
    ∀ acc : String, l.foldl (· ++ ·) acc = acc ++ String.join l := by
  induction l with
  | nil => intro acc; simp [String.join, stringAppend_empty]
  | cons x l ih =>
    intro acc
    have hj : String.join (x :: l) = x ++ String.join l := by
      show List.foldl (· ++ ·) "" (x :: l) = _
      rw [List.foldl_cons, ih, stringEmpty_append]
    rw [List.foldl_cons, ih, hj, stringAppend_assoc]

/-- If no observed key is mapped, assembly yields the empty batch. -/
lemma assembleRecords_nil_of_unmapped (data : PerformanceData) (cfg : Config)
    (h : ∀ kv ∈ data, lookupMapping cfg kv.1 = none) :
    assembleRecords data cfg = [] := by
  rw [assembleRecords_eq_filterMap, List.filterMap_eq_nil_iff]
  intro kv hkv
  rw [h kv hkv]
  rfl

/-- C8 counterexample: the record order is not a function of the map
contents. The two association lists below are permutations of each other —
the same two-entry Go map, enumerated in the two possible traversal orders —
yet both the assembled batch and the preview rows come out in different
orders, so a run repeated on the same inputs need not reproduce the order.
Moreover `printTable` and the assembly loop are two separate `range`
traversals of that map, each free to use either enumeration, so even within
one run the preview's metric-name order (first enumeration) need not match
the batch order (second enumeration): the last conjunct exhibits exactly
that disagreement. -/
theorem order_nondet_C8_counterexample :
    List.Perm [("a", (1:ℚ)), ("b", 2)] [("b", (2:ℚ)), ("a", 1)]
    ∧ assembleRecords [("a", (1:ℚ)), ("b", 2)]
          ⟨"", "", false, "ns", [("a", ⟨"A", []⟩), ("b", ⟨"B", []⟩)]⟩
        ≠ assembleRecords [("b", (2:ℚ)), ("a", 1)]
          ⟨"", "", false, "ns", [("a", ⟨"A", []⟩), ("b", ⟨"B", []⟩)]⟩
    ∧ printTableRows [("a", (1:ℚ)), ("b", 2)]
          ⟨"", "", false, "ns", [("a", ⟨"A", []⟩), ("b", ⟨"B", []⟩)]⟩
        ≠ printTableRows [("b", (2:ℚ)), ("a", 1)]
          ⟨"", "", false, "ns", [("a", ⟨"A", []⟩), ("b", ⟨"B", []⟩)]⟩
    ∧ (printTableRows [("a", (1:ℚ)), ("b", 2)]
          ⟨"", "", false, "ns", [("a", ⟨"A", []⟩), ("b", ⟨"B", []⟩)]⟩).map TableRow.MetricName
        ≠ (assembleRecords [("b", (2:ℚ)), ("a", 1)]
          ⟨"", "", false, "ns", [("a", ⟨"A", []⟩), ("b", ⟨"B", []⟩)]⟩).map MetricDatum.MetricName := by
  refine ⟨by decide, ?_, ?_, ?_⟩
  · intro h
    have h2 := congrArg (List.map MetricDatum.MetricName) h
    have hl : (assembleRecords [("a", (1:ℚ)), ("b", 2)]
        ⟨"", "", false, "ns", [("a", ⟨"A", []⟩), ("b", ⟨"B", []⟩)]⟩).map
          MetricDatum.MetricName = ["A", "B"] := rfl
    have hr : (assembleRecords [("b", (2:ℚ)), ("a", 1)]
        ⟨"", "", false, "ns", [("a", ⟨"A", []⟩), ("b", ⟨"B", []⟩)]⟩).map
          MetricDatum.MetricName = ["B", "A"] := rfl
    rw [hl, hr] at h2
    exact absurd h2 (by decide)
  · intro h
    have h2 := congrArg (List.map TableRow.MetricName) h
    have hl : (printTableRows [("a", (1:ℚ)), ("b", 2)]
        ⟨"", "", false, "ns", [("a", ⟨"A", []⟩), ("b", ⟨"B", []⟩)]⟩).map
          TableRow.MetricName = ["A", "B"] := rfl
    have hr : (printTableRows [("b", (2:ℚ)), ("a", 1)]
        ⟨"", "", false, "ns", [("a", ⟨"A", []⟩), ("b", ⟨"B", []⟩)]⟩).map
          TableRow.MetricName = ["B", "A"] := rfl
    rw [hl, hr] at h2
    exact absurd h2 (by decide)
  · have hl : (printTableRows [("a", (1:ℚ)), ("b", 2)]
        ⟨"", "", false, "ns", [("a", ⟨"A", []⟩), ("b", ⟨"B", []⟩)]⟩).map
          TableRow.MetricName = ["A", "B"] := rfl
    have hr : (assembleRecords [("b", (2:ℚ)), ("a", 1)]
        ⟨"", "", false, "ns", [("a", ⟨"A", []⟩), ("b", ⟨"B", []⟩)]⟩).map
          MetricDatum.MetricName = ["B", "A"] := rfl
    rw [hl, hr]
    decide

/-- C8 amended: record order carries no guarantee — `printTable` and the
assembly loop traverse the Go map independently, each in an arbitrary order,
so neither preview/batch order agreement within a run nor order
reproducibility across runs holds (see the counterexample). What the code
does guarantee is order-independence of the contents: for any two
enumerations of the same map, the assembled batch and the preview rows are
the same up to permutation. -/
theorem order_perm_C8_amended (d1 d2 : PerformanceData) (cfg : Config)
    (h : List.Perm d1 d2) :
    List.Perm (assembleRecords d1 cfg) (assembleRecords d2 cfg)
    ∧ List.Perm (printTableRows d1 cfg) (printTableRows d2 cfg) := by
  constructor
  · rw [assembleRecords_eq_filterMap, assembleRecords_eq_filterMap]
    exact h.filterMap _
  · rw [printTableRows_eq_map, printTableRows_eq_map]
    exact h.map _

/-- Witness for C8 amended at the two enumerations of the two-entry map. -/
theorem order_perm_C8_amended_witness :
    List.Perm
        (assembleRecords [("a", (1:ℚ)), ("b", 2)]
          ⟨"", "", false, "ns", [("a", ⟨"A", []⟩), ("b", ⟨"B", []⟩)]⟩)
        (assembleRecords [("b", (2:ℚ)), ("a", 1)]
          ⟨"", "", false, "ns", [("a", ⟨"A", []⟩), ("b", ⟨"B", []⟩)]⟩)
    ∧ List.Perm
        (printTableRows [("a", (1:ℚ)), ("b", 2)]
          ⟨"", "", false, "ns", [("a", ⟨"A", []⟩), ("b", ⟨"B", []⟩)]⟩)
        (printTableRows [("b", (2:ℚ)), ("a", 1)]
          ⟨"", "", false, "ns", [("a", ⟨"A", []⟩), ("b", ⟨"B", []⟩)]⟩) :=
  order_perm_C8_amended [("a", (1:ℚ)), ("b", 2)] [("b", (2:ℚ)), ("a", 1)]
    ⟨"", "", false, "ns", [("a", ⟨"A", []⟩), ("b", ⟨"B", []⟩)]⟩ (by decide)

/-- C9 counterexample: with data `{x: 1}` and an empty mapping table, no
record is assembled, yet the preview table still renders a data row for the
unmapped key `x` (with an empty metric name, from Go's zero value); and the
dimension summary of a single pair `Goal=Fitness` carries a trailing space,
so it is not the plain space-join of the pairs. -/
theorem preview_rows_C9_counterexample :
    printTableRows [("x", (1:ℚ))] ⟨"", "", false, "ns", []⟩ ≠ []
    ∧ assembleRecords [("x", (1:ℚ))] ⟨"", "", false, "ns", []⟩ = []
    ∧ (printTableRows [("x", (1:ℚ))] ⟨"", "", false, "ns", []⟩).map
        TableRow.MetricName = [""]
    ∧ dimString [⟨"Goal", "Fitness"⟩] ≠ "Goal=Fitness" := by
  refine ⟨?_, rfl, rfl, by decide⟩
  rw [printTableRows_eq_map]
  simp

/-- C9 amended: the preview table renders one data row for **every** observed
key, in traversal order — a mapped key's row carries the resolved remote
name, the 2-decimal rounded value and the dimension pairs each rendered as
`name=value` followed by a space (empty string when there are none), while an
unmapped key's row carries Go's zero-value mapping (empty name, no
dimensions); on empty input no data row is rendered (header-only table) and
nothing is raised. -/
theorem preview_rows_C9_amended :
    (∀ (data : PerformanceData) (cfg : Config),
        printTableRows data cfg = data.map (mkRow cfg))
    ∧ (∀ cfg : Config, printTableRows [] cfg = [])
    ∧ ∀ dims : List MetricMappingDimensions,
        dimString dims
          = String.join (dims.map fun d => d.Name ++ "=" ++ d.Value ++ " ") := by
  refine ⟨printTableRows_eq_map, fun cfg => rfl, ?_⟩
  intro dims
  have h : (dims.map fun d => d.Name ++ "=" ++ d.Value ++ " ").foldl (· ++ ·) ""
      = "" ++ String.join (dims.map fun d => d.Name ++ "=" ++ d.Value ++ " ") :=
    foldl_stringAppend _ ""
  rw [stringEmpty_append] at h
  rw [← h, dimString, List.foldl_map]
  congr 1
  funext acc d
  simp [stringAppend_assoc]

/-- C10: when no observed key has a mapping (the empty data set included),
skip-publish is off and the run is non-interactive or confirmed, the remote
put-metric-data call is still issued, with the empty record list — the empty
batch is not short-circuited. -/
theorem empty_batch_C10 (put : PutMetricDataInput → Except String Unit)
    (ni : Bool) (stdin : List String) (data : PerformanceData) (cfg : Config)
    (hskip : cfg.SkipPublish = false)
    (hunmapped : ∀ kv ∈ data, lookupMapping cfg kv.1 = none)
    (happr : ni = true ∨ (confirm stdin).1 = true) :
    (publishMetrics put ni stdin data cfg).publishCalls
      = [⟨cfg.MetricNamespace, []⟩] := by
  have hnil := assembleRecords_nil_of_unmapped data cfg hunmapped
  have hgate : (if ni then (true, ([] : List OutEvent)) else confirm stdin).1 = true := by
    cases ni with
    | true => rfl
    | false => simpa using happr.resolve_left (by simp)
  cases hput : put ⟨cfg.MetricNamespace, assembleRecords data cfg⟩ with
  | error e =>
    rw [publishMetrics_approved_error put ni stdin data cfg e hskip hgate hput, hnil]
  | ok v =>
    rw [publishMetrics_approved_ok put ni stdin data cfg hskip hgate hput, hnil]

/-- Witness for C10: data `{x: 1}` with an empty mapping table, a
non-interactive run and a succeeding publisher still issue one call with the
empty batch. -/
theorem empty_batch_C10_witness :
    (publishMetrics (fun _ => Except.ok ()) true [] [("x", (1:ℚ))]
        ⟨"", "", false, "ns", []⟩).publishCalls
      = [⟨"ns", []⟩] :=
  empty_batch_C10 (fun _ => Except.ok ()) true [] [("x", (1:ℚ))]
    ⟨"", "", false, "ns", []⟩ rfl (fun _ _ => rfl) (Or.inl rfl)
